import Mathlib

/-!
Shallow embedding of the AtariST framebuffer device of this repository
(source file `hw/display/ataristfb.c`), together with definitions modelled
from the specification for the register-validated device revision whose
implementation is not part of the sources (only its header
`include/hw/display/ataristfb.h` is present).

Machine integers are embedded as `Nat` with explicit truncation (`% 2 ^ 32`
for 32-bit registers, `% 256` for byte loads).  The C code loads plane words
with `*(const uint16_t *)&s->vram[...]`, a host-endian 16-bit load; it is
embedded as a little-endian load (the host class the device targets), which
the `for (i = 8; i < 24; i++)` mask trick in the source compensates for.
-/

namespace AtaristFb

/-- Constant `ATARISTFB_VRAM_SIZE`: 4 MiB of video RAM. -/
def ATARISTFB_VRAM_SIZE : Nat := 4 * 1024 * 1024

/-- Field `s->vram_bit_mask`, set once in `atarifb_common_realize` to
`ATARISTFB_VRAM_SIZE - 1`. -/
def vram_bit_mask : Nat := ATARISTFB_VRAM_SIZE - 1

/-- Register block offsets from `ataristfb.c`. -/
def DAFB_MODE_VADDR1 : Nat := 0x0
/-- Register offset `DAFB_MODE_VADDR2`. -/
def DAFB_MODE_VADDR2 : Nat := 0x4
/-- Register offset `DAFB_MODE_CTRL1`. -/
def DAFB_MODE_CTRL1 : Nat := 0x8
/-- Register offset `DAFB_MODE_CTRL2`. -/
def DAFB_MODE_CTRL2 : Nat := 0xc
/-- Register offset `DAFB_INTR_MASK`. -/
def DAFB_INTR_MASK : Nat := 0x104
/-- Register offset `DAFB_INTR_STAT`. -/
def DAFB_INTR_STAT : Nat := 0x108
/-- Register offset `DAFB_INTR_CLEAR`. -/
def DAFB_INTR_CLEAR : Nat := 0x10c
/-- Register offset `DAFB_LUT_INDEX`. -/
def DAFB_LUT_INDEX : Nat := 0x200
/-- Register offset `DAFB_LUT`. -/
def DAFB_LUT : Nat := 0x210

/-- Interrupt status bit `DAFB_INTR_VBL`. -/
def DAFB_INTR_VBL : Nat := 0x4

/-- Constant `DAFB_INTR_VBL_PERIOD_NS` (60.15 Hz vertical blank period). -/
def DAFB_INTR_VBL_PERIOD_NS : Nat := 16625800

/-- Constant `ATARISTFB_CTRL_TOPADDR` is referenced by `ataristfb.c` but not
defined anywhere under the sources; the control MMIO window is created with
size 0x1000 in `atarifb_common_realize`, so that size is used here.  No
theorem below depends on this value. -/
def ATARISTFB_CTRL_TOPADDR : Nat := 0x1000

/-- Size in bytes of `s->color_palette` (`uint8_t color_palette[256 * 3]`),
the modulus of the palette cursor arithmetic in `ataristfb.c`. -/
def ATARIFB_PALETTE_BYTES : Nat := 256 * 3

/-- Device state of `AtarifbState` (from `ataristfb.c`): video RAM bytes, the
byte-wide color palette (256 entries of 3 bytes each), the palette cursor
`palette_current`, the register file (indexed by `addr >> 2`), the interrupt
line level driven through `qemu_irq_raise/lower`, and the VBL `QEMUTimer`
(armed flag plus absolute deadline in virtual-clock nanoseconds). -/
@[ext]
structure AtarifbState where
  vram : Nat → Nat
  color_palette : Nat → Nat
  palette_current : Nat
  regs : Nat → Nat
  irq : Bool
  vbl_armed : Bool
  vbl_deadline : Nat

/-- Byte load from a byte array embedded as `Nat → Nat` (`uint8_t` read). -/
def vbyte (mem : Nat → Nat) (a : Nat) : Nat := mem a % 256

/-- Host (little-endian) 16-bit load `*(const uint16_t *)&mem[a]`. -/
def readWord16LE (mem : Nat → Nat) (a : Nat) : Nat :=
  vbyte mem a ||| (vbyte mem (a + 1)) <<< 8

/-- Big-endian 16-bit word formed by the two bytes at `a`; this is how the
guest (and the specification) views a plane word. -/
def beWord (mem : Nat → Nat) (a : Nat) : Nat :=
  (vbyte mem a) <<< 8 ||| vbyte mem (a + 1)

/-- Helper `rgb_to_pixel32` from `ui/pixel_ops.h`:
`(r << 16) | (g << 8) | b`. -/
def rgb_to_pixel32 (r g b : Nat) : Nat := (r <<< 16) ||| (g <<< 8) ||| b

/-- Pixel value produced for palette index `idx` by the color decoders:
`rgb_to_pixel32(color_palette[idx*3+0] << 2, ..., ...)` as in
`atarifb_draw_line2/4/8`. -/
def atarifb_pal_pixel (s : AtarifbState) (idx : Nat) : Nat :=
  rgb_to_pixel32 ((vbyte s.color_palette (idx * 3 + 0)) <<< 2)
                 ((vbyte s.color_palette (idx * 3 + 1)) <<< 2)
                 ((vbyte s.color_palette (idx * 3 + 2)) <<< 2)

/-- Inner-loop pixel of `atarifb_draw_line1` at loop index `i` (the source
iterates `i = 8 .. 23`): a set plane bit gives black, a clear one white. -/
def atarifb_line1_pixel (s : AtarifbState) (base i : Nat) : Nat :=
  if readWord16LE s.vram base &&& (0x8000 >>> (i % 16)) ≠ 0 then
    rgb_to_pixel32 0 0 0
  else
    rgb_to_pixel32 0xff 0xff 0xff

/-- Inner-loop pixel of `atarifb_draw_line2` at loop index `i`: the 2-bit
palette index gathers one bit from each of the two plane words. -/
def atarifb_line2_pixel (s : AtarifbState) (base i : Nat) : Nat :=
  atarifb_pal_pixel s
    ((if readWord16LE s.vram (base + 2 * 1) &&& (0x8000 >>> (i % 16)) ≠ 0 then 2 else 0) |||
     (if readWord16LE s.vram (base + 2 * 0) &&& (0x8000 >>> (i % 16)) ≠ 0 then 1 else 0))

/-- Inner-loop pixel of `atarifb_draw_line4` at loop index `i`. -/
def atarifb_line4_pixel (s : AtarifbState) (base i : Nat) : Nat :=
  atarifb_pal_pixel s
    ((if readWord16LE s.vram (base + 2 * 3) &&& (0x8000 >>> (i % 16)) ≠ 0 then 8 else 0) |||
     (if readWord16LE s.vram (base + 2 * 2) &&& (0x8000 >>> (i % 16)) ≠ 0 then 4 else 0) |||
     (if readWord16LE s.vram (base + 2 * 1) &&& (0x8000 >>> (i % 16)) ≠ 0 then 2 else 0) |||
     (if readWord16LE s.vram (base + 2 * 0) &&& (0x8000 >>> (i % 16)) ≠ 0 then 1 else 0))

/-- Inner-loop pixel of `atarifb_draw_line8` at loop index `i`. -/
def atarifb_line8_pixel (s : AtarifbState) (base i : Nat) : Nat :=
  atarifb_pal_pixel s
    ((if readWord16LE s.vram (base + 2 * 7) &&& (0x8000 >>> (i % 16)) ≠ 0 then 0x80 else 0) |||
     (if readWord16LE s.vram (base + 2 * 6) &&& (0x8000 >>> (i % 16)) ≠ 0 then 0x40 else 0) |||
     (if readWord16LE s.vram (base + 2 * 5) &&& (0x8000 >>> (i % 16)) ≠ 0 then 0x20 else 0) |||
     (if readWord16LE s.vram (base + 2 * 4) &&& (0x8000 >>> (i % 16)) ≠ 0 then 0x10 else 0) |||
     (if readWord16LE s.vram (base + 2 * 3) &&& (0x8000 >>> (i % 16)) ≠ 0 then 0x08 else 0) |||
     (if readWord16LE s.vram (base + 2 * 2) &&& (0x8000 >>> (i % 16)) ≠ 0 then 0x04 else 0) |||
     (if readWord16LE s.vram (base + 2 * 1) &&& (0x8000 >>> (i % 16)) ≠ 0 then 0x02 else 0) |||
     (if readWord16LE s.vram (base + 2 * 0) &&& (0x8000 >>> (i % 16)) ≠ 0 then 0x01 else 0))

/-- One 16-pixel group of a decoder: the source loop `for (i = 8; i < 24; i++)`
applied to the group's (masked) base address. -/
def atarifb_group (pix : Nat → Nat → Nat) (base : Nat) : List Nat :=
  (List.range 16).map (fun t => pix base (t + 8))

/-- Group loop of a decoder.  The source's `for (x = 0; x < width; x += 16)`
runs `⌈width/16⌉` times (`width` is always a multiple of 16 in use); the
recursion is over that group count, with the per-group address increment
`step` (2 bytes per plane) and the group base masked by `vram_bit_mask`. -/
def atarifb_draw_groups (pix : Nat → Nat → Nat) (step : Nat) :
    Nat → Nat → List Nat
  | _, 0 => []
  | addr, n + 1 =>
      atarifb_group pix (addr &&& vram_bit_mask) ++
      atarifb_draw_groups pix step (addr + step) n

/-- Function `atarifb_draw_line1` (mono): the palette is not consulted. -/
def atarifb_draw_line1 (s : AtarifbState) (addr width : Nat) : List Nat :=
  atarifb_draw_groups (atarifb_line1_pixel s) 2 addr ((width + 15) / 16)

/-- Function `atarifb_draw_line2` (2-bit color). -/
def atarifb_draw_line2 (s : AtarifbState) (addr width : Nat) : List Nat :=
  atarifb_draw_groups (atarifb_line2_pixel s) 4 addr ((width + 15) / 16)

/-- Function `atarifb_draw_line4` (4-bit color). -/
def atarifb_draw_line4 (s : AtarifbState) (addr width : Nat) : List Nat :=
  atarifb_draw_groups (atarifb_line4_pixel s) 8 addr ((width + 15) / 16)

/-- Function `atarifb_draw_line8` (8-bit color). -/
def atarifb_draw_line8 (s : AtarifbState) (addr width : Nat) : List Nat :=
  atarifb_draw_groups (atarifb_line8_pixel s) 16 addr ((width + 15) / 16)

/-- Bit extracted from plane `p`'s big-endian word for the pixel at group
position `t` (bit position `15 - t` of the plane word), exactly as the
specification of the planar decoder describes it. -/
def spec_plane_bit (mem : Nat → Nat) (base p t : Nat) : Bool :=
  Nat.testBit (beWord mem (base + 2 * p)) (15 - t)

/-- Index formed per the specification: a `depth`-bit number whose bit `p`
equals the given bit of plane `p` (plane 0 contributing the least-significant
index bit). -/
def spec_index (depth : Nat) (bits : Nat → Bool) : Nat :=
  (List.range depth).foldr (fun p acc => 2 ^ p * (bits p).toNat + acc) 0

/-- One group of 16 pixels per the specification: pixels in order of the bit
positions taken from most-significant to least-significant, each pixel being
the palette entry selected by the planar index. -/
def spec_group (s : AtarifbState) (depth base : Nat) : List Nat :=
  (List.range 16).map (fun t =>
    atarifb_pal_pixel s (spec_index depth (fun p => spec_plane_bit s.vram base p t)))

/-- Specification-side scanline decode at a given depth: one big-endian
16-bit word per plane, planes stored consecutively (plane 0 first), one group
of 16 pixels per plane-word tuple.  Shares the group-count and group-base
addressing with the source decoders. -/
def spec_decode (depth : Nat) (s : AtarifbState) : Nat → Nat → List Nat
  | _, 0 => []
  | addr, n + 1 =>
      spec_group s depth (addr &&& vram_bit_mask) ++
      spec_decode depth s (addr + 2 * depth) n

/-- Claim-level decode of a scanline: the group loop is run `⌈width/16⌉`
times just as in the source decoders. -/
def spec_decode_line (depth : Nat) (s : AtarifbState) (addr width : Nat) : List Nat :=
  spec_decode depth s addr ((width + 15) / 16)

/-- Monochrome variant actually implemented by `atarifb_draw_line1`: the
plane word is still read big-endian and scanned from most-significant to
least-significant bit, but a set bit gives black and a clear bit white,
without consulting the palette. -/
def spec_mono_group (mem : Nat → Nat) (base : Nat) : List Nat :=
  (List.range 16).map (fun t =>
    if Nat.testBit (beWord mem base) (15 - t) then rgb_to_pixel32 0 0 0
    else rgb_to_pixel32 0xff 0xff 0xff)

/-- Monochrome scanline decode (specification side of `atarifb_draw_line1`). -/
def spec_mono_decode (s : AtarifbState) : Nat → Nat → List Nat
  | _, 0 => []
  | addr, n + 1 =>
      spec_mono_group s.vram (addr &&& vram_bit_mask) ++
      spec_mono_decode s (addr + 2) n

/-- Monochrome decode of a scanline with the source's group count. -/
def spec_mono_decode_line (s : AtarifbState) (addr width : Nat) : List Nat :=
  spec_mono_decode s addr ((width + 15) / 16)

/-- Mode-table entry (`AtariFbMode`: depth, width, height, stride). -/
structure AtariFbMode where
  depth : Nat
  width : Nat
  height : Nat
  stride : Nat

/-- Built-in mode table `atarifb_mode_table` from `ataristfb.c`. -/
def atarifb_mode_table : List AtariFbMode :=
  [⟨1, 1280, 960, 0xa0⟩, ⟨2, 1280, 960, 0x140⟩,
   ⟨4, 1280, 960, 0x280⟩, ⟨8, 1280, 960, 0x500⟩]

/-- Byte addresses a depth-`d` decoder reads for a scanline starting at
`addr`: for each of the `n` groups, the `2*d` plane-word bytes at the masked
group base, mirroring `atarifb_draw_groups`' addressing. -/
def atarifb_line_read_addrs (step : Nat) : Nat → Nat → List Nat
  | _, 0 => []
  | addr, n + 1 =>
      (List.range step).map (fun j => (addr &&& vram_bit_mask) + j) ++
      atarifb_line_read_addrs step (addr + step) n

/-- Update-notification loop of `atarifb_draw_graphic`, with the dirty test
abstracted to a per-row predicate.  The fuel argument counts the rows still
to scan (`height - y`); `ymin` is `some m` when a dirty run starting at row
`m` is open (the source uses `ymin = -1` for `none`).  Emitted pairs are
`(ymin, rows)` for each `dpy_gfx_update(s->con, 0, ymin, width, rows)`. -/
def atarifb_scan_updates (d : Nat → Bool) : Nat → Nat → Option Nat → List (Nat × Nat)
  | 0, y, ymin =>
      match ymin with
      | some m => [(m, y - m)]
      | none => []
  | rem + 1, y, ymin =>
      if d y then
        atarifb_scan_updates d rem (y + 1) (some (ymin.getD y))
      else
        match ymin with
        | some m => (m, y - m) :: atarifb_scan_updates d rem (y + 1) none
        | none => atarifb_scan_updates d rem (y + 1) none

/-- Update notifications emitted by one `atarifb_draw_graphic` pass: the row
loop starts at `y = 0`, `page = 0`, advancing `page` by the mode stride per
row; row `y` is dirty when `atarifb_check_dirty(s, snap, page, stride)` holds
(abstracted as the byte-range predicate `dirty page len`). -/
def atarifb_draw_graphic_updates (dirty : Nat → Nat → Bool) (stride height : Nat) :
    List (Nat × Nat) :=
  atarifb_scan_updates (fun y => dirty (y * stride) stride) height 0 none

/-- Store to the register file at word index `i` (32-bit truncation of
`uint32_t regs[...]`). -/
def setReg (s : AtarifbState) (i v : Nat) : AtarifbState :=
  { s with regs := fun j => if j = i then v % 2 ^ 32 else s.regs j }

/-- Function `atarifb_update_irq`: the line level is
`(regs[DAFB_INTR_STAT >> 2] & regs[DAFB_INTR_MASK >> 2]) != 0`. -/
def atarifb_update_irq (s : AtarifbState) : AtarifbState :=
  { s with irq := decide ((s.regs (DAFB_INTR_STAT >>> 2) &&& s.regs (DAFB_INTR_MASK >>> 2)) ≠ 0) }

/-- Function `atarifb_next_vbl`: next multiple of the VBL period after the
current virtual time `now`. -/
def atarifb_next_vbl (now : Nat) : Nat :=
  (now + DAFB_INTR_VBL_PERIOD_NS) / DAFB_INTR_VBL_PERIOD_NS * DAFB_INTR_VBL_PERIOD_NS

/-- QEMU `timer_mod`: (re)arm the VBL timer at an absolute deadline. -/
def timer_mod (s : AtarifbState) (deadline : Nat) : AtarifbState :=
  { s with vbl_armed := true, vbl_deadline := deadline }

/-- QEMU `timer_del`: cancel the pending VBL timer. -/
def timer_del (s : AtarifbState) : AtarifbState :=
  { s with vbl_armed := false }

/-- Timer callback `atarifb_vbl_timer`, fired at virtual time `now`: set the
VBL bit in `DAFB_INTR_STAT`, recompute the interrupt line, and re-arm the
timer at the next VBL deadline. -/
def atarifb_vbl_timer (s : AtarifbState) (now : Nat) : AtarifbState :=
  let s1 := { s with regs := (fun j =>
    if j = DAFB_INTR_STAT >>> 2 then s.regs (DAFB_INTR_STAT >>> 2) ||| DAFB_INTR_VBL
    else s.regs j) }
  timer_mod (atarifb_update_irq s1) (atarifb_next_vbl now)

/-- MMIO handler `atarifb_ctrl_write` (the `size` argument does not affect
behavior and is omitted; `now` is the virtual-clock time at which the write
happens, needed by the `DAFB_INTR_MASK` case).  `~DAFB_INTR_VBL` on a 32-bit
register is `0xfffffffb`.  The `invalidate_display` side effect of LUT writes
touches only the memory subsystem's dirty log and is not part of the state
modelled here. -/
def atarifb_ctrl_write (s : AtarifbState) (addr val now : Nat) : AtarifbState :=
  if addr = DAFB_MODE_VADDR1 ∨ addr = DAFB_MODE_VADDR2 ∨
     (DAFB_MODE_CTRL1 ≤ addr ∧ addr ≤ DAFB_MODE_CTRL1 + 3) ∨
     (DAFB_MODE_CTRL2 ≤ addr ∧ addr ≤ DAFB_MODE_CTRL2 + 3) then
    setReg s (addr >>> 2) val
  else if addr = DAFB_INTR_MASK then
    let s1 := setReg s (addr >>> 2) val
    if val &&& DAFB_INTR_VBL ≠ 0 then timer_mod s1 (atarifb_next_vbl now)
    else timer_del s1
  else if addr = DAFB_INTR_CLEAR then
    atarifb_update_irq
      { s with regs := (fun j =>
          if j = DAFB_INTR_STAT >>> 2 then s.regs (DAFB_INTR_STAT >>> 2) &&& 0xfffffffb
          else s.regs j) }
  else if addr = DAFB_LUT_INDEX then
    { s with palette_current := (val &&& 0xff) * 3 }
  else if DAFB_LUT ≤ addr ∧ addr ≤ DAFB_LUT + 3 then
    { s with
      color_palette := (fun j =>
        if j = s.palette_current then val &&& 0xff else s.color_palette j),
      palette_current := (s.palette_current + 1) % ATARIFB_PALETTE_BYTES }
  else if addr < ATARISTFB_CTRL_TOPADDR then
    setReg s (addr >>> 2) val
  else
    s

/-- MMIO handler `atarifb_ctrl_read`: returns the value read and the state
after the read (LUT reads are a `uint8_t` load and advance the cursor). -/
def atarifb_ctrl_read (s : AtarifbState) (addr : Nat) : Nat × AtarifbState :=
  if addr = DAFB_MODE_VADDR1 ∨ addr = DAFB_MODE_VADDR2 ∨ addr = DAFB_MODE_CTRL1 ∨
     addr = DAFB_MODE_CTRL2 ∨ addr = DAFB_INTR_STAT then
    (s.regs (addr >>> 2), s)
  else if DAFB_LUT ≤ addr ∧ addr ≤ DAFB_LUT + 3 then
    (vbyte s.color_palette s.palette_current,
     { s with palette_current := (s.palette_current + 1) % ATARIFB_PALETTE_BYTES })
  else if addr < ATARISTFB_CTRL_TOPADDR then
    (s.regs (addr >>> 2), s)
  else
    (0, s)

/-- Control-block access: a read at an offset, or a write of a value at an
offset happening at virtual time `now`. -/
inductive CtrlOp where
  | rd (addr : Nat)
  | wr (addr val now : Nat)

/-- State after one control-block access (the value of a read is dropped). -/
def atarifb_ctrl_step (s : AtarifbState) : CtrlOp → AtarifbState
  | .rd addr => (atarifb_ctrl_read s addr).2
  | .wr addr val now => atarifb_ctrl_write s addr val now

/-- Modelled from the spec: device state of the register-validated revision
(`AtariSTFBState`); only its header `include/hw/display/ataristfb.h` is in
the sources (registers `REG_VBL_ACK/VBL_CTRL/DEPTH/WIDTH/HEIGHT/VADDR`, a
256-entry 32-bit palette), the implementation is absent.  Fields follow the
spec's Register Bank, Palette Store and VBL Timer State. -/
structure STFBState where
  depth : Nat
  width : Nat
  height : Nat
  vaddr : Nat
  vbl_period : Nat
  vbl_armed : Bool
  vbl_deadline : Nat
  irq : Bool
  palette : Nat → Nat
  full_redraw : Bool

/-- Modelled from the spec: named registers of the validated revision. -/
inductive STFBReg where
  | vbl_ack
  | vbl_period
  | depth
  | width
  | height
  | vaddr

/-- Modelled from the spec: the configuration invariant — whenever
`VADDR != 0`, `DEPTH ∈ {1,2,4,8}`, `WIDTH % 16 == 0` and
`WIDTH ∈ [320,2048]`, `HEIGHT ∈ [1,2048]`, and `VADDR` is even. -/
def stfb_config_valid (s : STFBState) : Bool :=
  s.vaddr == 0 ||
  ((s.depth == 1 || s.depth == 2 || s.depth == 4 || s.depth == 8) &&
   (s.width % 16 == 0) && decide (320 ≤ s.width) && decide (s.width ≤ 2048) &&
   decide (1 ≤ s.height) && decide (s.height ≤ 2048) && (s.vaddr % 2 == 0))

/-- Modelled from the spec: violation of the invariant forces the whole
geometry (`DEPTH,WIDTH,HEIGHT`) to zero and `VADDR` to the off-sentinel 0. -/
def stfb_zero_geometry (s : STFBState) : STFBState :=
  { s with depth := 0, width := 0, height := 0, vaddr := 0 }

/-- Modelled from the spec: a `VADDR` write first stores the raw register and
then re-validates the whole configuration; on success the full-redraw flag is
set (the decoder selection and frame-buffer-view invalidation have no further
observable state here). -/
def stfb_write_vaddr (s : STFBState) (v : Nat) : STFBState :=
  let raw := { s with vaddr := v % 2 ^ 32 }
  if stfb_config_valid raw then { raw with full_redraw := true }
  else stfb_zero_geometry raw

/-- Modelled from the spec: a `VBL_PERIOD` write with a value above the
minimum sane threshold arms (or re-arms) the timer at `now + value` and
stores the period; at or below the threshold it disarms the timer and stores
period 0.  The spec leaves the threshold value open, so it is a parameter. -/
def stfb_write_vbl_period (thr now : Nat) (s : STFBState) (v : Nat) : STFBState :=
  if thr < v then
    { s with vbl_armed := true, vbl_deadline := now + v, vbl_period := v }
  else
    { s with vbl_armed := false, vbl_period := 0 }

/-- Modelled from the spec: `write(reg, value)` of the Register Bank & Mode
Validator (spec section 4.1).  `VBL_ACK` lowers the interrupt line; `DEPTH`,
`WIDTH` and `HEIGHT` are stored verbatim. -/
def stfb_write_reg (thr now : Nat) (s : STFBState) : STFBReg → Nat → STFBState
  | .vbl_ack, _ => { s with irq := false }
  | .vbl_period, v => stfb_write_vbl_period thr now s v
  | .depth, v => { s with depth := v % 2 ^ 32 }
  | .width, v => { s with width := v % 2 ^ 32 }
  | .height, v => { s with height := v % 2 ^ 32 }
  | .vaddr, v => stfb_write_vaddr s v

/-- Modelled from the spec: Palette Store write — stores the 32-bit color if
the index is in range, else a no-op. -/
def stfb_palette_write (s : STFBState) (i c : Nat) : STFBState :=
  if i < 256 then
    { s with palette := (fun j => if j = i then c % 2 ^ 32 else s.palette j) }
  else s

/-- Modelled from the spec: Palette Store read — the stored value if the
index is in range, else 0. -/
def stfb_palette_read (s : STFBState) (i : Nat) : Nat :=
  if i < 256 then s.palette i else 0

/-- Modelled from the spec: whether any byte of row `y`'s range
`[y*stride, (y+1)*stride)` is marked dirty in the snapshot `dirty`. -/
def stfb_row_dirty (dirty : Nat → Bool) (stride y : Nat) : Bool :=
  (List.range stride).any (fun b => dirty (y * stride + b))

/-- Concrete device state with all-zero memory, palette and registers. -/
def zeroState : AtarifbState :=
  ⟨fun _ => 0, fun _ => 0, 0, fun _ => 0, false, false, 0⟩

/-- Concrete device state whose video RAM holds 0xff in every byte. -/
def ffState : AtarifbState :=
  ⟨fun _ => 255, fun _ => 0, 0, fun _ => 0, false, false, 0⟩

/-- Concrete device state with the VBL interrupt pending and enabled
(status and mask registers both hold the VBL bit), the line raised and the
timer armed. -/
def vblState : AtarifbState :=
  ⟨fun _ => 0, fun _ => 0, 0,
   fun j => if j = DAFB_INTR_MASK >>> 2 then DAFB_INTR_VBL
            else if j = DAFB_INTR_STAT >>> 2 then DAFB_INTR_VBL else 0,
   true, true, 0⟩

/-- Property of an emitted update notification: rows `[a, a+n)` form a
nonempty maximal contiguous run of dirty rows inside `[0, height)`. -/
def GoodRun (d : Nat → Bool) (height a n : Nat) : Prop :=
  1 ≤ n ∧ a + n ≤ height ∧ (∀ k, a ≤ k → k < a + n → d k = true) ∧
  (a = 0 ∨ d (a - 1) = false) ∧ (a + n = height ∨ d (a + n) = false)

/-- Concrete byte-range dirty predicate marking exactly rows 2, 3, 4 and 7
of a 10-row frame with stride 160 (row `y` starts at page `y * 160`). -/
def dirtyRows2347 : Nat → Nat → Bool :=
  fun page _ => decide (page = 320 ∨ page = 480 ∨ page = 640 ∨ page = 1120)

/-- Modelled from the spec: one redraw cycle of the Dirty-Region Tracker &
Redraw Engine (spec section 4.4).  If `VADDR == 0` the cycle does nothing
and emits no notification; otherwise rows that are dirty in the snapshot (or
everything, when the full-redraw flag is set) are decoded and coalesced into
maximal runs, and the flag is cleared.  The dirty snapshot is supplied by
the external memory subsystem and passed in as a predicate. -/
def stfb_redraw (s : STFBState) (dirty : Nat → Bool) : STFBState × List (Nat × Nat) :=
  if s.vaddr = 0 then (s, [])
  else
    ({ s with full_redraw := false },
     atarifb_scan_updates
       (fun y => stfb_row_dirty dirty (s.width * s.depth / 8) y || s.full_redraw)
       s.height 0 none)

/-- Concrete state of the modelled register-validated device, all off. -/
def stfbZero : STFBState :=
  ⟨0, 0, 0, 0, 0, false, 0, false, fun _ => 0, false⟩

/-- Bit test via masking: `x &&& 2 ^ j` is nonzero exactly when bit `j` of
`x` is set. -/
theorem and_two_pow_ne_zero (x j : Nat) : (x &&& 2 ^ j ≠ 0) ↔ Nat.testBit x j = true := by
  constructor
  · intro h
    obtain ⟨i, hi⟩ := Nat.ne_zero_implies_bit_true h
    rw [Nat.testBit_and, Nat.testBit_two_pow] at hi
    rcases Bool.and_eq_true _ _ |>.mp hi with ⟨hx, hj⟩
    have hji : j = i := of_decide_eq_true hj
    rw [hji]
    exact hx
  · intro h hz
    have h0 : Nat.testBit (x &&& 2 ^ j) j = false := by
      rw [hz]; exact Nat.zero_testBit j
    rw [Nat.testBit_and, Nat.testBit_two_pow] at h0
    simp [h] at h0

/-- Shifting the `0x8000` mask right by `k ≤ 15` selects bit `15 - k`. -/
theorem shift_mask_eq (k : Nat) (hk : k ≤ 15) : (0x8000 : Nat) >>> k = 2 ^ (15 - k) := by
  interval_cases k <;> decide

/-- Core endianness lemma: testing bit `15 - (i mod 16)` of the host
little-endian word (with the source's loop index `i = t + 8`, `t < 16`) is
the same as testing bit `15 - t` of the big-endian plane word, which is the
bit driving pixel `t` of the group. -/
theorem le_word_mask_testBit (mem : Nat → Nat) (a t : Nat) (ht : t < 16) :
    (readWord16LE mem a &&& (0x8000 >>> ((t + 8) % 16)) ≠ 0) ↔
      Nat.testBit (beWord mem a) (15 - t) = true := by
  have hb0 : mem a % 256 < 256 := Nat.mod_lt _ (by norm_num)
  have hb1 : mem (a + 1) % 256 < 256 := Nat.mod_lt _ (by norm_num)
  rw [readWord16LE, beWord, vbyte, vbyte]
  have hmod : (t + 8) % 16 ≤ 15 := Nat.le_of_lt_succ (Nat.mod_lt _ (by norm_num))
  rw [shift_mask_eq _ hmod, and_two_pow_ne_zero]
  rcases Nat.lt_or_ge t 8 with h8 | h8
  · have he : (t + 8) % 16 = t + 8 := Nat.mod_eq_of_lt (by omega)
    rw [he, show 15 - (t + 8) = 7 - t by omega]
    simp only [Nat.testBit_or, Nat.testBit_shiftLeft]
    have h2 : ¬ (7 - t ≥ 8) := by omega
    have h3 : (8 : Nat) ≤ 15 - t := by omega
    have h4 : 15 - t - 8 = 7 - t := by omega
    have h6 : (256 : Nat) ≤ 2 ^ (15 - t) := by
      calc (256 : Nat) = 2 ^ 8 := by norm_num
        _ ≤ 2 ^ (15 - t) := Nat.pow_le_pow_right (by norm_num) h3
    have h5 : Nat.testBit (mem (a + 1) % 256) (15 - t) = false :=
      Nat.testBit_lt_two_pow (lt_of_lt_of_le hb1 h6)
    simp [h2, h3, h4, h5]
  · have he : (t + 8) % 16 = t - 8 := by omega
    rw [he, show 15 - (t - 8) = 23 - t by omega]
    simp only [Nat.testBit_or, Nat.testBit_shiftLeft]
    have h2 : (8 : Nat) ≤ 23 - t := by omega
    have h3 : 23 - t - 8 = 15 - t := by omega
    have h4 : ¬ ((15 - t) ≥ 8) := by omega
    have h6 : (256 : Nat) ≤ 2 ^ (23 - t) := by
      calc (256 : Nat) = 2 ^ 8 := by norm_num
        _ ≤ 2 ^ (23 - t) := Nat.pow_le_pow_right (by norm_num) h2
    have h5 : Nat.testBit (mem a % 256) (23 - t) = false :=
      Nat.testBit_lt_two_pow (lt_of_lt_of_le hb0 h6)
    simp [h2, h3, h4, h5]

/-- Pixel-level equivalence at depth 2. -/
theorem line2_pixel_eq_spec (s : AtarifbState) (base t : Nat) (ht : t < 16) :
    atarifb_line2_pixel s base (t + 8) =
      atarifb_pal_pixel s (spec_index 2 (fun p => spec_plane_bit s.vram base p t)) := by
  unfold atarifb_line2_pixel spec_index spec_plane_bit
  rw [show List.range 2 = [0, 1] from rfl]
  simp only [List.foldr_cons, List.foldr_nil, le_word_mask_testBit _ _ _ ht]
  generalize Nat.testBit (beWord s.vram (base + 2 * 0)) (15 - t) = b0
  generalize Nat.testBit (beWord s.vram (base + 2 * 1)) (15 - t) = b1
  cases b0 <;> cases b1 <;> rfl

/-- Pixel-level equivalence at depth 4. -/
theorem line4_pixel_eq_spec (s : AtarifbState) (base t : Nat) (ht : t < 16) :
    atarifb_line4_pixel s base (t + 8) =
      atarifb_pal_pixel s (spec_index 4 (fun p => spec_plane_bit s.vram base p t)) := by
  unfold atarifb_line4_pixel spec_index spec_plane_bit
  rw [show List.range 4 = [0, 1, 2, 3] from rfl]
  simp only [List.foldr_cons, List.foldr_nil, le_word_mask_testBit _ _ _ ht]
  generalize Nat.testBit (beWord s.vram (base + 2 * 0)) (15 - t) = b0
  generalize Nat.testBit (beWord s.vram (base + 2 * 1)) (15 - t) = b1
  generalize Nat.testBit (beWord s.vram (base + 2 * 2)) (15 - t) = b2
  generalize Nat.testBit (beWord s.vram (base + 2 * 3)) (15 - t) = b3
  cases b0 <;> cases b1 <;> cases b2 <;> cases b3 <;> rfl

/-- Pixel-level equivalence at depth 8. -/
theorem line8_pixel_eq_spec (s : AtarifbState) (base t : Nat) (ht : t < 16) :
    atarifb_line8_pixel s base (t + 8) =
      atarifb_pal_pixel s (spec_index 8 (fun p => spec_plane_bit s.vram base p t)) := by
  unfold atarifb_line8_pixel spec_index spec_plane_bit
  rw [show List.range 8 = [0, 1, 2, 3, 4, 5, 6, 7] from rfl]
  simp only [List.foldr_cons, List.foldr_nil, le_word_mask_testBit _ _ _ ht]
  generalize Nat.testBit (beWord s.vram (base + 2 * 0)) (15 - t) = b0
  generalize Nat.testBit (beWord s.vram (base + 2 * 1)) (15 - t) = b1
  generalize Nat.testBit (beWord s.vram (base + 2 * 2)) (15 - t) = b2
  generalize Nat.testBit (beWord s.vram (base + 2 * 3)) (15 - t) = b3
  generalize Nat.testBit (beWord s.vram (base + 2 * 4)) (15 - t) = b4
  generalize Nat.testBit (beWord s.vram (base + 2 * 5)) (15 - t) = b5
  generalize Nat.testBit (beWord s.vram (base + 2 * 6)) (15 - t) = b6
  generalize Nat.testBit (beWord s.vram (base + 2 * 7)) (15 - t) = b7
  cases b0 <;> cases b1 <;> cases b2 <;> cases b3 <;>
    cases b4 <;> cases b5 <;> cases b6 <;> cases b7 <;> rfl

/-- Pixel-level form of the monochrome decoder: bit `15 - t` of the
big-endian word selects black (set) or white (clear). -/
theorem line1_pixel_eq_spec (s : AtarifbState) (base t : Nat) (ht : t < 16) :
    atarifb_line1_pixel s base (t + 8) =
      (if Nat.testBit (beWord s.vram base) (15 - t) then rgb_to_pixel32 0 0 0
       else rgb_to_pixel32 0xff 0xff 0xff) := by
  unfold atarifb_line1_pixel
  simp only [le_word_mask_testBit _ _ _ ht]

/-- Decoder/specification equivalence at depth 2, by induction on the group
count. -/
theorem draw_groups2_eq_spec (s : AtarifbState) :
    ∀ n addr, atarifb_draw_groups (atarifb_line2_pixel s) 4 addr n = spec_decode 2 s addr n := by
  intro n
  induction n with
  | zero => intro addr; rfl
  | succ k ih =>
    intro addr
    simp only [atarifb_draw_groups, spec_decode, atarifb_group, spec_group]
    refine congrArg₂ _ ?_ (ih _)
    exact List.map_congr_left fun t htm =>
      line2_pixel_eq_spec s _ t (List.mem_range.mp htm)

/-- Decoder/specification equivalence at depth 4. -/
theorem draw_groups4_eq_spec (s : AtarifbState) :
    ∀ n addr, atarifb_draw_groups (atarifb_line4_pixel s) 8 addr n = spec_decode 4 s addr n := by
  intro n
  induction n with
  | zero => intro addr; rfl
  | succ k ih =>
    intro addr
    simp only [atarifb_draw_groups, spec_decode, atarifb_group, spec_group]
    refine congrArg₂ _ ?_ (ih _)
    exact List.map_congr_left fun t htm =>
      line4_pixel_eq_spec s _ t (List.mem_range.mp htm)

/-- Decoder/specification equivalence at depth 8. -/
theorem draw_groups8_eq_spec (s : AtarifbState) :
    ∀ n addr, atarifb_draw_groups (atarifb_line8_pixel s) 16 addr n = spec_decode 8 s addr n := by
  intro n
  induction n with
  | zero => intro addr; rfl
  | succ k ih =>
    intro addr
    simp only [atarifb_draw_groups, spec_decode, atarifb_group, spec_group]
    refine congrArg₂ _ ?_ (ih _)
    exact List.map_congr_left fun t htm =>
      line8_pixel_eq_spec s _ t (List.mem_range.mp htm)

/-- Monochrome decoder equivalence with its big-endian MSB-first form. -/
theorem draw_groups1_eq_spec (s : AtarifbState) :
    ∀ n addr, atarifb_draw_groups (atarifb_line1_pixel s) 2 addr n = spec_mono_decode s addr n := by
  intro n
  induction n with
  | zero => intro addr; rfl
  | succ k ih =>
    intro addr
    simp only [atarifb_draw_groups, spec_mono_decode, atarifb_group, spec_mono_group]
    refine congrArg₂ _ ?_ (ih _)
    exact List.map_congr_left fun t htm =>
      line1_pixel_eq_spec s _ t (List.mem_range.mp htm)

/-- C1 (counterexample): the claim's palette-indexed reading fails at depth
1 — on an all-zero frame with an all-zero palette, `atarifb_draw_line1`
produces white pixels while the palette-entry-0 decode produces black
pixels, so the depth-1 decoder is not a palette lookup. -/
theorem planar_decode_depth1_cex :
    atarifb_draw_line1 zeroState 0 16 ≠ spec_decode_line 1 zeroState 0 16 := by
  decide

/-- C1 (amended): for depths 2, 4 and 8 the scanline decoder is exactly the
specified planar decode — one big-endian 16-bit word per plane, planes
consecutive with plane 0 first, pixels from most- to least-significant bit
position, pixel `t` being the palette entry whose index bit `p` is bit
`15 - t` of plane `p`'s word; at depth 1 the decoder scans the single
big-endian plane word in the same most- to least-significant order but
hardwires white for a clear bit and black for a set bit, ignoring the
palette. -/
theorem planar_decode_spec_equiv :
    (∀ (s : AtarifbState) (addr width : Nat),
        atarifb_draw_line2 s addr width = spec_decode_line 2 s addr width) ∧
    (∀ (s : AtarifbState) (addr width : Nat),
        atarifb_draw_line4 s addr width = spec_decode_line 4 s addr width) ∧
    (∀ (s : AtarifbState) (addr width : Nat),
        atarifb_draw_line8 s addr width = spec_decode_line 8 s addr width) ∧
    (∀ (s : AtarifbState) (addr width : Nat),
        atarifb_draw_line1 s addr width = spec_mono_decode_line s addr width) :=
  ⟨fun s addr width => draw_groups2_eq_spec s ((width + 15) / 16) addr,
   fun s addr width => draw_groups4_eq_spec s ((width + 15) / 16) addr,
   fun s addr width => draw_groups8_eq_spec s ((width + 15) / 16) addr,
   fun s addr width => draw_groups1_eq_spec s ((width + 15) / 16) addr⟩

/-- Reading a plane word of an all-zero-byte memory gives 0. -/
theorem readWord16LE_zero {v : Nat → Nat} (hz : ∀ a, v a % 256 = 0) (x : Nat) :
    readWord16LE v x = 0 := by
  simp [readWord16LE, vbyte, hz]

/-- Reading a plane word of an all-0xff-byte memory gives 0xffff. -/
theorem readWord16LE_ff {v : Nat → Nat} (hf : ∀ a, v a % 256 = 255) (x : Nat) :
    readWord16LE v x = 65535 := by
  rw [readWord16LE, vbyte, vbyte, hf, hf]
  decide

/-- Every mask value `0x8000 >> (i % 16)` selects a bit of 0xffff. -/
theorem ffff_and_mask_ne (i : Nat) : (65535 : Nat) &&& (0x8000 >>> (i % 16)) ≠ 0 := by
  have h : i % 16 < 16 := Nat.mod_lt _ (by norm_num)
  obtain ⟨j, hj⟩ : ∃ j, i % 16 = j := ⟨_, rfl⟩
  rw [hj] at h ⊢
  interval_cases j <;> decide

/-- A decoder whose pixel function is constant fills the line with that
constant. -/
theorem mem_draw_groups_const (pix : Nat → Nat → Nat) (step c : Nat)
    (h : ∀ base i, pix base i = c) :
    ∀ n addr x, x ∈ atarifb_draw_groups pix step addr n → x = c := by
  intro n
  induction n with
  | zero =>
    intro addr x hx
    simp [atarifb_draw_groups] at hx
  | succ k ih =>
    intro addr x hx
    simp only [atarifb_draw_groups, atarifb_group] at hx
    rcases List.mem_append.mp hx with hx | hx
    · rcases List.mem_map.mp hx with ⟨t, _, rfl⟩
      exact h _ _
    · exact ih _ _ hx

/-- All-zero planes give palette index 0 at depth 2. -/
theorem line2_pixel_zero (s : AtarifbState) (hz : ∀ a, s.vram a % 256 = 0)
    (base i : Nat) : atarifb_line2_pixel s base i = atarifb_pal_pixel s 0 := by
  unfold atarifb_line2_pixel
  simp [readWord16LE_zero hz]

/-- All-one planes give palette index 3 at depth 2. -/
theorem line2_pixel_ff (s : AtarifbState) (hf : ∀ a, s.vram a % 256 = 255)
    (base i : Nat) : atarifb_line2_pixel s base i = atarifb_pal_pixel s 3 := by
  unfold atarifb_line2_pixel
  simp [readWord16LE_ff hf, ffff_and_mask_ne]

/-- All-zero planes give palette index 0 at depth 4. -/
theorem line4_pixel_zero (s : AtarifbState) (hz : ∀ a, s.vram a % 256 = 0)
    (base i : Nat) : atarifb_line4_pixel s base i = atarifb_pal_pixel s 0 := by
  unfold atarifb_line4_pixel
  simp [readWord16LE_zero hz]

/-- All-one planes give palette index 15 at depth 4. -/
theorem line4_pixel_ff (s : AtarifbState) (hf : ∀ a, s.vram a % 256 = 255)
    (base i : Nat) : atarifb_line4_pixel s base i = atarifb_pal_pixel s 15 := by
  unfold atarifb_line4_pixel
  simp [readWord16LE_ff hf, ffff_and_mask_ne]

/-- All-zero planes give palette index 0 at depth 8. -/
theorem line8_pixel_zero (s : AtarifbState) (hz : ∀ a, s.vram a % 256 = 0)
    (base i : Nat) : atarifb_line8_pixel s base i = atarifb_pal_pixel s 0 := by
  unfold atarifb_line8_pixel
  simp [readWord16LE_zero hz]

/-- All-one planes give palette index 255 at depth 8. -/
theorem line8_pixel_ff (s : AtarifbState) (hf : ∀ a, s.vram a % 256 = 255)
    (base i : Nat) : atarifb_line8_pixel s base i = atarifb_pal_pixel s 255 := by
  unfold atarifb_line8_pixel
  simp [readWord16LE_ff hf, ffff_and_mask_ne]

/-- An all-zero plane gives white at depth 1. -/
theorem line1_pixel_zero (s : AtarifbState) (hz : ∀ a, s.vram a % 256 = 0)
    (base i : Nat) : atarifb_line1_pixel s base i = rgb_to_pixel32 0xff 0xff 0xff := by
  unfold atarifb_line1_pixel
  simp [readWord16LE_zero hz]

/-- An all-one plane gives black at depth 1. -/
theorem line1_pixel_ff (s : AtarifbState) (hf : ∀ a, s.vram a % 256 = 255)
    (base i : Nat) : atarifb_line1_pixel s base i = rgb_to_pixel32 0 0 0 := by
  unfold atarifb_line1_pixel
  simp [readWord16LE_ff hf, ffff_and_mask_ne]

/-- C2 (counterexample): at depth 1 an all-zero scanline does not decode to
palette entry 0 — with an all-zero palette, entry 0 decodes to black while
`atarifb_draw_line1` emits white. -/
theorem decode_depth1_fill_cex :
    ¬ (∀ x ∈ atarifb_draw_line1 zeroState 0 16, x = atarifb_pal_pixel zeroState 0) := by
  decide

/-- C2 (amended): for depths 2, 4 and 8 an all-zero scanline decodes to the
palette-entry-0 pixel everywhere and an all-one scanline to the palette
entry `(1<<depth)-1` pixel everywhere; at depth 1, which ignores the
palette, all-zero gives white and all-one black. -/
theorem decode_uniform_fill :
    (∀ (s : AtarifbState) (addr width : Nat), (∀ a, s.vram a % 256 = 0) →
       ∀ x ∈ atarifb_draw_line2 s addr width, x = atarifb_pal_pixel s 0) ∧
    (∀ (s : AtarifbState) (addr width : Nat), (∀ a, s.vram a % 256 = 255) →
       ∀ x ∈ atarifb_draw_line2 s addr width, x = atarifb_pal_pixel s 3) ∧
    (∀ (s : AtarifbState) (addr width : Nat), (∀ a, s.vram a % 256 = 0) →
       ∀ x ∈ atarifb_draw_line4 s addr width, x = atarifb_pal_pixel s 0) ∧
    (∀ (s : AtarifbState) (addr width : Nat), (∀ a, s.vram a % 256 = 255) →
       ∀ x ∈ atarifb_draw_line4 s addr width, x = atarifb_pal_pixel s 15) ∧
    (∀ (s : AtarifbState) (addr width : Nat), (∀ a, s.vram a % 256 = 0) →
       ∀ x ∈ atarifb_draw_line8 s addr width, x = atarifb_pal_pixel s 0) ∧
    (∀ (s : AtarifbState) (addr width : Nat), (∀ a, s.vram a % 256 = 255) →
       ∀ x ∈ atarifb_draw_line8 s addr width, x = atarifb_pal_pixel s 255) ∧
    (∀ (s : AtarifbState) (addr width : Nat), (∀ a, s.vram a % 256 = 0) →
       ∀ x ∈ atarifb_draw_line1 s addr width, x = rgb_to_pixel32 0xff 0xff 0xff) ∧
    (∀ (s : AtarifbState) (addr width : Nat), (∀ a, s.vram a % 256 = 255) →
       ∀ x ∈ atarifb_draw_line1 s addr width, x = rgb_to_pixel32 0 0 0) :=
  ⟨fun s addr width hz =>
     fun x hx => mem_draw_groups_const _ _ _ (line2_pixel_zero s hz) _ addr x hx,
   fun s addr width hf =>
     fun x hx => mem_draw_groups_const _ _ _ (line2_pixel_ff s hf) _ addr x hx,
   fun s addr width hz =>
     fun x hx => mem_draw_groups_const _ _ _ (line4_pixel_zero s hz) _ addr x hx,
   fun s addr width hf =>
     fun x hx => mem_draw_groups_const _ _ _ (line4_pixel_ff s hf) _ addr x hx,
   fun s addr width hz =>
     fun x hx => mem_draw_groups_const _ _ _ (line8_pixel_zero s hz) _ addr x hx,
   fun s addr width hf =>
     fun x hx => mem_draw_groups_const _ _ _ (line8_pixel_ff s hf) _ addr x hx,
   fun s addr width hz =>
     fun x hx => mem_draw_groups_const _ _ _ (line1_pixel_zero s hz) _ addr x hx,
   fun s addr width hf =>
     fun x hx => mem_draw_groups_const _ _ _ (line1_pixel_ff s hf) _ addr x hx⟩

/-- C2 (witness): the amended statement applied to concrete all-zero and
all-0xff frames of one 16-pixel group. -/
theorem decode_uniform_fill_witness :
    (∀ x ∈ atarifb_draw_line2 zeroState 0 16, x = atarifb_pal_pixel zeroState 0) ∧
    (∀ x ∈ atarifb_draw_line2 ffState 0 16, x = atarifb_pal_pixel ffState 3) ∧
    (∀ x ∈ atarifb_draw_line4 zeroState 0 16, x = atarifb_pal_pixel zeroState 0) ∧
    (∀ x ∈ atarifb_draw_line4 ffState 0 16, x = atarifb_pal_pixel ffState 15) ∧
    (∀ x ∈ atarifb_draw_line8 zeroState 0 16, x = atarifb_pal_pixel zeroState 0) ∧
    (∀ x ∈ atarifb_draw_line8 ffState 0 16, x = atarifb_pal_pixel ffState 255) ∧
    (∀ x ∈ atarifb_draw_line1 zeroState 0 16, x = rgb_to_pixel32 0xff 0xff 0xff) ∧
    (∀ x ∈ atarifb_draw_line1 ffState 0 16, x = rgb_to_pixel32 0 0 0) :=
  ⟨decode_uniform_fill.1 zeroState 0 16 (fun a => rfl),
   decode_uniform_fill.2.1 ffState 0 16 (fun a => rfl),
   decode_uniform_fill.2.2.1 zeroState 0 16 (fun a => rfl),
   decode_uniform_fill.2.2.2.1 ffState 0 16 (fun a => rfl),
   decode_uniform_fill.2.2.2.2.1 zeroState 0 16 (fun a => rfl),
   decode_uniform_fill.2.2.2.2.2.1 ffState 0 16 (fun a => rfl),
   decode_uniform_fill.2.2.2.2.2.2.1 zeroState 0 16 (fun a => rfl),
   decode_uniform_fill.2.2.2.2.2.2.2 ffState 0 16 (fun a => rfl)⟩

/-- Soundness of the update-coalescing loop: assuming the loop invariant
about the currently open run, every emitted update is a maximal contiguous
dirty run of the scanned range `[0, y + rem)`. -/
theorem scan_updates_sound (d : Nat → Bool) :
    ∀ rem y ymin,
      (∀ m, ymin = some m →
        m < y ∧ (∀ k, m ≤ k → k < y → d k = true) ∧ (m = 0 ∨ d (m - 1) = false)) →
      (ymin = none → (y = 0 ∨ d (y - 1) = false)) →
      ∀ a n, (a, n) ∈ atarifb_scan_updates d rem y ymin → GoodRun d (y + rem) a n := by
  intro rem
  induction rem with
  | zero =>
    intro y ymin hsome _ a n hmem
    cases ymin with
    | none => simp [atarifb_scan_updates] at hmem
    | some m =>
      simp [atarifb_scan_updates] at hmem
      obtain ⟨hm, hall, hleft⟩ := hsome m rfl
      obtain ⟨ha, hn⟩ := hmem
      subst ha; subst hn
      refine ⟨by omega, by omega, ?_, hleft, Or.inl (by omega)⟩
      intro k hk1 hk2
      exact hall k hk1 (by omega)
  | succ rem ih =>
    intro y ymin hsome hnone a n hmem
    simp only [atarifb_scan_updates] at hmem
    have hht : y + (rem + 1) = (y + 1) + rem := by omega
    by_cases hd : d y
    · rw [if_pos hd] at hmem
      rw [hht]
      refine ih (y + 1) (some (ymin.getD y)) ?_ (by intro h; cases h) a n hmem
      intro m hm
      cases ymin with
      | none =>
        have hm' : y = m := by simpa using hm
        refine ⟨by omega, ?_, ?_⟩
        · intro k hk1 hk2
          have hky : k = y := by omega
          rw [hky]
          exact hd
        · rw [← hm']
          exact hnone rfl
      | some m0 =>
        have hm' : m0 = m := by simpa using hm
        obtain ⟨h1, h2, h3⟩ := hsome m0 rfl
        rw [← hm']
        refine ⟨by omega, ?_, h3⟩
        intro k hk1 hk2
        rcases Nat.lt_or_ge k y with hk | hk
        · exact h2 k hk1 hk
        · have hky : k = y := by omega
          rw [hky]
          exact hd
    · rw [if_neg hd] at hmem
      cases ymin with
      | none =>
        rw [hht]
        exact ih (y + 1) none (by intro m h; cases h) (fun _ => Or.inr (by simpa using hd))
          a n hmem
      | some m =>
        obtain ⟨h1, h2, h3⟩ := hsome m rfl
        rcases List.mem_cons.mp hmem with hhead | htail
        · rw [Prod.mk.injEq] at hhead
          obtain ⟨ha, hn⟩ := hhead
          rw [ha, hn]
          refine ⟨by omega, by omega, ?_, h3, Or.inr ?_⟩
          · intro k hk1 hk2
            exact h2 k hk1 (by omega)
          · rw [show m + (y - m) = y by omega]
            simpa using hd
        · rw [hht]
          exact ih (y + 1) none (by intro m' h; cases h)
            (fun _ => Or.inr (by simpa using hd)) a n htail

/-- Lower bound on the start row of every emitted update. -/
theorem scan_updates_lb (d : Nat → Bool) :
    ∀ rem y ymin a n, (a, n) ∈ atarifb_scan_updates d rem y ymin →
      min (ymin.getD y) y ≤ a := by
  intro rem
  induction rem with
  | zero =>
    intro y ymin a n hmem
    cases ymin with
    | none => simp [atarifb_scan_updates] at hmem
    | some m =>
      simp [atarifb_scan_updates] at hmem
      obtain ⟨ha, _⟩ := hmem
      rw [ha]
      simp only [Option.getD_some]
      exact Nat.min_le_left _ _
  | succ rem ih =>
    intro y ymin a n hmem
    simp only [atarifb_scan_updates] at hmem
    by_cases hd : d y
    · rw [if_pos hd] at hmem
      have h := ih (y + 1) (some (ymin.getD y)) a n hmem
      simp only [Option.getD_some] at h
      exact le_trans (min_le_min (le_refl _) (by omega)) h
    · rw [if_neg hd] at hmem
      cases ymin with
      | none =>
        have h := ih (y + 1) none a n hmem
        simp only [Option.getD_none, min_self] at h ⊢
        omega
      | some m =>
        rcases List.mem_cons.mp hmem with hhead | htail
        · rw [Prod.mk.injEq] at hhead
          obtain ⟨ha, _⟩ := hhead
          rw [ha]
          simp only [Option.getD_some]
          exact Nat.min_le_left _ _
        · have h := ih (y + 1) none a n htail
          simp only [Option.getD_none, min_self] at h
          simp only [Option.getD_some]
          exact le_trans (Nat.min_le_right _ _) (by omega)

/-- Emitted updates are strictly ordered with a gap: each run ends strictly
before the next one begins, so two notifications never touch the same
contiguous dirty band. -/
theorem scan_updates_ordered (d : Nat → Bool) :
    ∀ rem y ymin, (∀ m, ymin = some m → m ≤ y) →
      List.Pairwise (fun u v : Nat × Nat => u.1 + u.2 < v.1)
        (atarifb_scan_updates d rem y ymin) := by
  intro rem
  induction rem with
  | zero =>
    intro y ymin hm
    cases ymin <;> simp [atarifb_scan_updates]
  | succ rem ih =>
    intro y ymin hm
    simp only [atarifb_scan_updates]
    by_cases hd : d y
    · rw [if_pos hd]
      refine ih (y + 1) (some (ymin.getD y)) ?_
      intro m hm'
      simp only [Option.some.injEq] at hm'
      cases ymin with
      | none =>
        simp only [Option.getD_none] at hm'
        omega
      | some m0 =>
        have h0 := hm m0 rfl
        simp only [Option.getD_some] at hm'
        omega
    · rw [if_neg hd]
      cases ymin with
      | none => exact ih (y + 1) none (fun m h => by cases h)
      | some m =>
        refine List.Pairwise.cons ?_ (ih (y + 1) none (fun m' h => by cases h))
        intro v hv
        have hlb := scan_updates_lb d rem (y + 1) none v.1 v.2 hv
        simp only [Option.getD_none, min_self] at hlb
        have hmy := hm m rfl
        show m + (y - m) < v.1
        omega

/-- C4: every update notification emitted by a redraw pass is a maximal
contiguous run of dirty rows (nonempty, entirely dirty, not extendable up or
down); the emitted runs are strictly ordered with a clean row between them,
so no contiguous dirty band ever gets more than one notification; and for
the concrete dirty-row set {2,3,4,7} of a 10-row frame the pass emits
exactly the two notifications covering rows [2,5) and [7,8). -/
theorem draw_graphic_coalescing :
    (∀ (dirty : Nat → Nat → Bool) (stride height a n : Nat),
        (a, n) ∈ atarifb_draw_graphic_updates dirty stride height →
        GoodRun (fun y => dirty (y * stride) stride) height a n) ∧
    (∀ (dirty : Nat → Nat → Bool) (stride height : Nat),
        List.Pairwise (fun u v : Nat × Nat => u.1 + u.2 < v.1)
          (atarifb_draw_graphic_updates dirty stride height)) ∧
    atarifb_draw_graphic_updates dirtyRows2347 160 10 = [(2, 3), (7, 1)] := by
  refine ⟨?_, ?_, by decide⟩
  · intro dirty stride height a n hmem
    have h := scan_updates_sound (fun y => dirty (y * stride) stride) height 0 none
      (fun m hm => by cases hm) (fun _ => Or.inl rfl) a n hmem
    simpa using h
  · intro dirty stride height
    exact scan_updates_ordered _ height 0 none (fun m hm => by cases hm)

/-- C4 (witness): the maximal-run guarantee applied to the concrete dirty
set {2,3,4,7} of a 10-row frame, at the emitted notification (2, 3). -/
theorem draw_graphic_coalescing_witness :
    GoodRun (fun y => dirtyRows2347 (y * 160) 160) 10 2 3 :=
  draw_graphic_coalescing.1 dirtyRows2347 160 10 2 3 (by decide)

/-- Setting extra bits in a word cannot clear a nonzero masked value. -/
theorem and_ne_zero_of_or {x v m : Nat} (h : x &&& m ≠ 0) : (x ||| v) &&& m ≠ 0 := by
  obtain ⟨i, hi⟩ := Nat.ne_zero_implies_bit_true h
  rw [Nat.testBit_and] at hi
  rcases Bool.and_eq_true _ _ |>.mp hi with ⟨hx, hm⟩
  intro hz
  have h0 : Nat.testBit ((x ||| v) &&& m) i = false := by
    rw [hz]; exact Nat.zero_testBit i
  rw [Nat.testBit_and, Nat.testBit_or, hx, hm] at h0
  simp at h0

/-- Oring in the VBL bit is a no-op when it is already set. -/
theorem or_vbl_absorb {x : Nat} (h : x &&& DAFB_INTR_VBL = DAFB_INTR_VBL) :
    x ||| DAFB_INTR_VBL = x := by
  have h4 : x &&& 4 = 4 := h
  have hx2 : Nat.testBit x 2 = true := by
    have h2 : Nat.testBit (x &&& 4) 2 = Nat.testBit 4 2 := by rw [h4]
    rw [Nat.testBit_and] at h2
    have hb : Nat.testBit 4 2 = true := by decide
    rw [hb] at h2
    simpa using h2
  apply Nat.eq_of_testBit_eq
  intro i
  show Nat.testBit (x ||| 4) i = Nat.testBit x i
  rw [Nat.testBit_or]
  by_cases hi : i = 2
  · subst hi
    simp [hx2]
  · have hb : Nat.testBit 4 i = false := by
      rw [show (4 : Nat) = 2 ^ 2 by norm_num, Nat.testBit_two_pow]
      exact decide_eq_false fun hh => hi hh.symm
    simp [hb]

/-- Register and line values after one VBL timer firing. -/
theorem vbl_timer_fields (s : AtarifbState) (now : Nat) :
    (atarifb_vbl_timer s now).regs (DAFB_INTR_STAT >>> 2) =
      s.regs (DAFB_INTR_STAT >>> 2) ||| DAFB_INTR_VBL ∧
    (atarifb_vbl_timer s now).regs (DAFB_INTR_MASK >>> 2) =
      s.regs (DAFB_INTR_MASK >>> 2) ∧
    (atarifb_vbl_timer s now).irq =
      decide ((s.regs (DAFB_INTR_STAT >>> 2) ||| DAFB_INTR_VBL) &&&
              s.regs (DAFB_INTR_MASK >>> 2) ≠ 0) ∧
    (atarifb_vbl_timer s now).vbl_armed = true := by
  refine ⟨?_, ?_, ?_, rfl⟩ <;>
    simp [atarifb_vbl_timer, atarifb_update_irq, timer_mod,
          DAFB_INTR_STAT, DAFB_INTR_MASK, DAFB_INTR_VBL]

/-- C5: once the interrupt line is up with the VBL interrupt pending and
enabled, it stays asserted across any number of further timer firings; a
firing in such a state changes nothing but the timer deadline (in
particular it produces no new line transition); and an acknowledge write to
`DAFB_INTR_CLEAR` lowers the line while leaving the timer's armed state and
deadline untouched. -/
theorem vbl_irq_latch :
    (∀ (s : AtarifbState) (nows : List Nat),
        s.irq = true →
        s.regs (DAFB_INTR_STAT >>> 2) &&& s.regs (DAFB_INTR_MASK >>> 2) ≠ 0 →
        (nows.foldl atarifb_vbl_timer s).irq = true) ∧
    (∀ (s : AtarifbState) (now : Nat),
        s.irq = true →
        s.vbl_armed = true →
        s.regs (DAFB_INTR_STAT >>> 2) &&& DAFB_INTR_VBL = DAFB_INTR_VBL →
        s.regs (DAFB_INTR_STAT >>> 2) &&& s.regs (DAFB_INTR_MASK >>> 2) ≠ 0 →
        atarifb_vbl_timer s now = { s with vbl_deadline := atarifb_next_vbl now }) ∧
    (∀ (s : AtarifbState) (val now : Nat),
        (s.regs (DAFB_INTR_STAT >>> 2) &&& s.regs (DAFB_INTR_MASK >>> 2)) &&&
          0xfffffffb = 0 →
        (atarifb_ctrl_write s DAFB_INTR_CLEAR val now).irq = false ∧
        (atarifb_ctrl_write s DAFB_INTR_CLEAR val now).vbl_armed = s.vbl_armed ∧
        (atarifb_ctrl_write s DAFB_INTR_CLEAR val now).vbl_deadline = s.vbl_deadline) := by
  refine ⟨?_, ?_, ?_⟩
  · intro s nows
    induction nows generalizing s with
    | nil => intro h _; exact h
    | cons now rest ih =>
      intro hirq hsm
      rw [List.foldl_cons]
      have hf := vbl_timer_fields s now
      have hne : (s.regs (DAFB_INTR_STAT >>> 2) ||| DAFB_INTR_VBL) &&&
          s.regs (DAFB_INTR_MASK >>> 2) ≠ 0 := and_ne_zero_of_or hsm
      refine ih (atarifb_vbl_timer s now) ?_ ?_
      · rw [hf.2.2.1]
        exact decide_eq_true hne
      · rw [hf.1, hf.2.1]
        exact hne
  · intro s now hirq harm hstat hsm
    have habs : s.regs (DAFB_INTR_STAT >>> 2) ||| DAFB_INTR_VBL =
        s.regs (DAFB_INTR_STAT >>> 2) := or_vbl_absorb hstat
    refine AtarifbState.ext ?_ ?_ ?_ ?_ ?_ ?_ ?_
    · rfl
    · rfl
    · rfl
    · show (fun j => if j = DAFB_INTR_STAT >>> 2
          then s.regs (DAFB_INTR_STAT >>> 2) ||| DAFB_INTR_VBL
          else s.regs j) = s.regs
      funext j
      by_cases hj : j = DAFB_INTR_STAT >>> 2
      · rw [if_pos hj, hj]
        exact habs
      · rw [if_neg hj]
    · show decide (((if DAFB_INTR_STAT >>> 2 = DAFB_INTR_STAT >>> 2
          then s.regs (DAFB_INTR_STAT >>> 2) ||| DAFB_INTR_VBL
          else s.regs (DAFB_INTR_STAT >>> 2)) &&&
          (if DAFB_INTR_MASK >>> 2 = DAFB_INTR_STAT >>> 2
          then s.regs (DAFB_INTR_STAT >>> 2) ||| DAFB_INTR_VBL
          else s.regs (DAFB_INTR_MASK >>> 2)) ≠ 0)) = s.irq
      rw [if_pos rfl, if_neg (by decide), habs, hirq]
      exact decide_eq_true hsm
    · exact harm.symm
    · rfl
  · intro s val now hz
    have hsh : (s.regs 66 &&& 0xfffffffb) &&& s.regs 65 = 0 := by
      rw [Nat.and_assoc, Nat.and_comm 0xfffffffb, ← Nat.and_assoc]
      exact hz
    refine ⟨?_, ?_, ?_⟩ <;>
      simp [atarifb_ctrl_write, atarifb_update_irq, DAFB_INTR_CLEAR, DAFB_MODE_VADDR1,
            DAFB_MODE_VADDR2, DAFB_MODE_CTRL1, DAFB_MODE_CTRL2, DAFB_INTR_MASK,
            DAFB_INTR_STAT, DAFB_LUT_INDEX, DAFB_LUT, hsh]

/-- C5 (witness): the latch behavior exercised on a concrete pending-VBL
state — the line stays up across two further firings, a firing only moves
the deadline, and the acknowledge write drops the line while leaving the
timer armed. -/
theorem vbl_irq_latch_witness :
    (([5, 6] : List Nat).foldl atarifb_vbl_timer vblState).irq = true ∧
    atarifb_vbl_timer vblState 7 = { vblState with vbl_deadline := atarifb_next_vbl 7 } ∧
    (atarifb_ctrl_write vblState DAFB_INTR_CLEAR 0 9).irq = false ∧
    (atarifb_ctrl_write vblState DAFB_INTR_CLEAR 0 9).vbl_armed = vblState.vbl_armed :=
  ⟨vbl_irq_latch.1 vblState [5, 6] rfl (by decide),
   vbl_irq_latch.2.1 vblState 7 rfl rfl (by decide) (by decide),
   (vbl_irq_latch.2.2 vblState 0 9 (by decide)).1,
   (vbl_irq_latch.2.2 vblState 0 9 (by decide)).2.1⟩

/-- Effect of a LUT data write: one byte is stored at the cursor and the
cursor advances by 1 modulo the palette size. -/
theorem ctrl_write_lut (s : AtarifbState) (addr v now : Nat)
    (h1 : DAFB_LUT ≤ addr) (h2 : addr ≤ DAFB_LUT + 3) :
    atarifb_ctrl_write s addr v now =
      { s with
        color_palette := (fun j => if j = s.palette_current then v &&& 0xff
                                   else s.color_palette j),
        palette_current := (s.palette_current + 1) % ATARIFB_PALETTE_BYTES } := by
  have h1' : 0x210 ≤ addr := h1
  have h2' : addr ≤ 0x213 := h2
  unfold atarifb_ctrl_write
  simp only [DAFB_MODE_VADDR1, DAFB_MODE_VADDR2, DAFB_MODE_CTRL1, DAFB_MODE_CTRL2,
             DAFB_INTR_MASK, DAFB_INTR_CLEAR, DAFB_LUT_INDEX, DAFB_LUT]
  rw [if_neg (by omega), if_neg (by omega), if_neg (by omega), if_neg (by omega),
      if_pos (by omega)]

/-- Effect of a LUT data read: the byte at the cursor is returned and the
cursor advances by 1 modulo the palette size. -/
theorem ctrl_read_lut (s : AtarifbState) (addr : Nat)
    (h1 : DAFB_LUT ≤ addr) (h2 : addr ≤ DAFB_LUT + 3) :
    atarifb_ctrl_read s addr =
      (vbyte s.color_palette s.palette_current,
       { s with palette_current := (s.palette_current + 1) % ATARIFB_PALETTE_BYTES }) := by
  have h1' : 0x210 ≤ addr := h1
  have h2' : addr ≤ 0x213 := h2
  unfold atarifb_ctrl_read
  simp only [DAFB_MODE_VADDR1, DAFB_MODE_VADDR2, DAFB_MODE_CTRL1, DAFB_MODE_CTRL2,
             DAFB_INTR_STAT, DAFB_LUT]
  rw [if_neg (by omega), if_pos (by omega)]

/-- One control-block access keeps the palette cursor inside the palette. -/
theorem ctrl_step_cursor_lt (s : AtarifbState) (op : CtrlOp)
    (h : s.palette_current < ATARIFB_PALETTE_BYTES) :
    (atarifb_ctrl_step s op).palette_current < ATARIFB_PALETTE_BYTES := by
  have h' : s.palette_current < 768 := h
  cases op with
  | rd addr =>
    show (atarifb_ctrl_read s addr).2.palette_current < ATARIFB_PALETTE_BYTES
    unfold atarifb_ctrl_read
    split_ifs <;>
      first
        | exact h'
        | (show (s.palette_current + 1) % 768 < 768; omega)
  | wr addr val now =>
    show (atarifb_ctrl_write s addr val now).palette_current < ATARIFB_PALETTE_BYTES
    have hval : val &&& 0xff ≤ 0xff := @Nat.and_le_right val 0xff
    unfold atarifb_ctrl_write
    split_ifs <;>
      first
        | exact h'
        | (show (val &&& 0xff) * 3 < 768; omega)
        | (show (s.palette_current + 1) % 768 < 768; omega)

/-- C10: the palette cursor stays in `[0, 768)` across any sequence of
control-block reads and writes; a `DAFB_LUT_INDEX` write sets it to
`3 * (value & 0xff)`; LUT data writes store the single byte `value & 0xff`
at the cursor and advance it by exactly 1 modulo 768; LUT data reads return
the single byte at the cursor and advance it by exactly 1 modulo 768. -/
theorem palette_cursor_invariant :
    (∀ (s : AtarifbState) (ops : List CtrlOp),
        s.palette_current < ATARIFB_PALETTE_BYTES →
        (ops.foldl atarifb_ctrl_step s).palette_current < ATARIFB_PALETTE_BYTES) ∧
    (∀ (s : AtarifbState) (v now : Nat),
        (atarifb_ctrl_write s DAFB_LUT_INDEX v now).palette_current = 3 * (v &&& 0xff)) ∧
    (∀ (s : AtarifbState) (addr v now : Nat), DAFB_LUT ≤ addr → addr ≤ DAFB_LUT + 3 →
        (atarifb_ctrl_write s addr v now).color_palette s.palette_current = v &&& 0xff ∧
        v &&& 0xff < 256 ∧
        (atarifb_ctrl_write s addr v now).palette_current =
          (s.palette_current + 1) % ATARIFB_PALETTE_BYTES) ∧
    (∀ (s : AtarifbState) (addr : Nat), DAFB_LUT ≤ addr → addr ≤ DAFB_LUT + 3 →
        (atarifb_ctrl_read s addr).1 = vbyte s.color_palette s.palette_current ∧
        (atarifb_ctrl_read s addr).1 < 256 ∧
        (atarifb_ctrl_read s addr).2.palette_current =
          (s.palette_current + 1) % ATARIFB_PALETTE_BYTES) := by
  refine ⟨?_, ?_, ?_, ?_⟩
  · intro s ops
    induction ops generalizing s with
    | nil => intro h; exact h
    | cons op rest ih =>
      intro h
      rw [List.foldl_cons]
      exact ih _ (ctrl_step_cursor_lt s op h)
  · intro s v now
    show (v &&& 0xff) * 3 = 3 * (v &&& 0xff)
    exact Nat.mul_comm _ _
  · intro s addr v now h1 h2
    rw [ctrl_write_lut s addr v now h1 h2]
    refine ⟨by simp, ?_, rfl⟩
    have hval : v &&& 0xff ≤ 0xff := @Nat.and_le_right v 0xff
    omega
  · intro s addr h1 h2
    rw [ctrl_read_lut s addr h1 h2]
    refine ⟨rfl, ?_, rfl⟩
    show vbyte s.color_palette s.palette_current < 256
    exact Nat.mod_lt _ (by norm_num)

/-- C10 (witness): the cursor facts exercised on a concrete state and a
concrete access sequence (set the index, write a byte, read a byte). -/
theorem palette_cursor_invariant_witness :
    (([CtrlOp.wr DAFB_LUT_INDEX 0x12 0, CtrlOp.wr DAFB_LUT 0xab 0,
       CtrlOp.rd DAFB_LUT] : List CtrlOp).foldl atarifb_ctrl_step
         zeroState).palette_current < ATARIFB_PALETTE_BYTES ∧
    (atarifb_ctrl_write zeroState DAFB_LUT_INDEX 0x12 0).palette_current = 3 * (0x12 &&& 0xff) ∧
    (atarifb_ctrl_write zeroState DAFB_LUT 0xab 0).color_palette zeroState.palette_current =
      0xab &&& 0xff ∧
    (atarifb_ctrl_read zeroState DAFB_LUT).2.palette_current =
      (zeroState.palette_current + 1) % ATARIFB_PALETTE_BYTES :=
  ⟨palette_cursor_invariant.1 zeroState _ (by decide),
   palette_cursor_invariant.2.1 zeroState 0x12 0,
   (palette_cursor_invariant.2.2.1 zeroState DAFB_LUT 0xab 0 (by decide) (by decide)).1,
   (palette_cursor_invariant.2.2.2 zeroState DAFB_LUT (by decide) (by decide)).2.2⟩

/-- Every address in the decoder read list is a masked group base plus a
plane-word byte offset below `step`. -/
theorem mem_line_read_addrs (step : Nat) :
    ∀ n addr a, a ∈ atarifb_line_read_addrs step addr n →
      ∃ g j, g < n ∧ j < step ∧ a = ((addr + g * step) &&& vram_bit_mask) + j := by
  intro n
  induction n with
  | zero =>
    intro addr a ha
    simp [atarifb_line_read_addrs] at ha
  | succ k ih =>
    intro addr a ha
    simp only [atarifb_line_read_addrs] at ha
    rcases List.mem_append.mp ha with ha | ha
    · rcases List.mem_map.mp ha with ⟨j, hj, rfl⟩
      exact ⟨0, j, by omega, List.mem_range.mp hj,
        by rw [Nat.zero_mul, Nat.add_zero]⟩
    · obtain ⟨g, j, hg, hj, he⟩ := ih (addr + step) a ha
      refine ⟨g + 1, j, by omega, hj, ?_⟩
      rw [he, show addr + step + g * step = addr + (g + 1) * step by ring]

/-- A masked address bounded before masking stays inside VRAM. -/
theorem masked_bound (x j lim : Nat) (h : x + j < lim)
    (hlim : lim ≤ ATARISTFB_VRAM_SIZE) :
    (x &&& vram_bit_mask) + j < ATARISTFB_VRAM_SIZE := by
  have hle : x &&& vram_bit_mask ≤ x := Nat.and_le_left
  omega

/-- The depth-8 decoder depends on VRAM only through the bytes listed in
`atarifb_line_read_addrs`: two states with the same palette whose VRAM
agrees on those bytes decode identically. -/
theorem draw_line8_reads_only (s s' : AtarifbState)
    (hpal : s.color_palette = s'.color_palette) :
    ∀ n addr,
      (∀ a ∈ atarifb_line_read_addrs 16 addr n, s.vram a = s'.vram a) →
      atarifb_draw_groups (atarifb_line8_pixel s) 16 addr n =
        atarifb_draw_groups (atarifb_line8_pixel s') 16 addr n := by
  intro n
  induction n with
  | zero => intro addr h; simp only [atarifb_draw_groups]
  | succ k ih =>
    intro addr h
    simp only [atarifb_draw_groups, atarifb_group]
    refine congrArg₂ _ ?_ (ih (addr + 16) ?_)
    · apply List.map_congr_left
      intro t htm
      have hb : ∀ j, j < 16 → s.vram ((addr &&& vram_bit_mask) + j) =
          s'.vram ((addr &&& vram_bit_mask) + j) := by
        intro j hj
        apply h
        simp only [atarifb_line_read_addrs]
        exact List.mem_append_left _ (List.mem_map.mpr ⟨j, List.mem_range.mpr hj, rfl⟩)
      have hw : ∀ p, p ≤ 7 →
          readWord16LE s.vram ((addr &&& vram_bit_mask) + 2 * p) =
            readWord16LE s'.vram ((addr &&& vram_bit_mask) + 2 * p) := by
        intro p hp
        unfold readWord16LE vbyte
        rw [show (addr &&& vram_bit_mask) + 2 * p + 1 =
              (addr &&& vram_bit_mask) + (2 * p + 1) by omega]
        rw [hb (2 * p) (by omega), hb (2 * p + 1) (by omega)]
      unfold atarifb_line8_pixel
      rw [hw 7 (by omega), hw 6 (by omega), hw 5 (by omega), hw 4 (by omega),
          hw 3 (by omega), hw 2 (by omega), hw 1 (by omega), hw 0 (by omega)]
      simp only [atarifb_pal_pixel, vbyte, hpal]
    · intro a ha
      apply h
      simp only [atarifb_line_read_addrs]
      exact List.mem_append_right _ ha

/-- C9: for every entry of the built-in mode table and every scanline of
the frame, every VRAM byte address the decoder reads — the
`vram_bit_mask`-masked group base plus the plane-word byte offset — lies
inside the 4 MiB VRAM. -/
theorem decoder_reads_in_bounds :
    ∀ m ∈ atarifb_mode_table, ∀ y a, y < m.height →
      a ∈ atarifb_line_read_addrs (2 * m.depth) (y * m.stride) ((m.width + 15) / 16) →
      a < ATARISTFB_VRAM_SIZE := by
  intro m hm y a hy ha
  simp only [atarifb_mode_table, List.mem_cons, List.not_mem_nil, or_false] at hm
  obtain ⟨g, j, hg, hj, he⟩ := mem_line_read_addrs _ _ _ _ ha
  rcases hm with rfl | rfl | rfl | rfl
  · have hy' : y < 960 := hy
    have hg' : g < 80 := hg
    have hj' : j < 2 := hj
    have he' : a = ((y * 160 + g * (2 * 1)) &&& vram_bit_mask) + j := he
    rw [he']
    exact masked_bound _ _ 153600 (by omega) (by decide)
  · have hy' : y < 960 := hy
    have hg' : g < 80 := hg
    have hj' : j < 4 := hj
    have he' : a = ((y * 320 + g * (2 * 2)) &&& vram_bit_mask) + j := he
    rw [he']
    exact masked_bound _ _ 307200 (by omega) (by decide)
  · have hy' : y < 960 := hy
    have hg' : g < 80 := hg
    have hj' : j < 8 := hj
    have he' : a = ((y * 640 + g * (2 * 4)) &&& vram_bit_mask) + j := he
    rw [he']
    exact masked_bound _ _ 614400 (by omega) (by decide)
  · have hy' : y < 960 := hy
    have hg' : g < 80 := hg
    have hj' : j < 16 := hj
    have he' : a = ((y * 1280 + g * (2 * 8)) &&& vram_bit_mask) + j := he
    rw [he']
    exact masked_bound _ _ 1228800 (by omega) (by decide)

set_option maxHeartbeats 2000000 in
/-- C9 (witness): the bound applied to a concrete read of the depth-8 mode
(first byte of the first group of scanline 0). -/
theorem decoder_reads_in_bounds_witness : (0 : Nat) < ATARISTFB_VRAM_SIZE :=
  decoder_reads_in_bounds ⟨8, 1280, 960, 0x500⟩
    (by simp [atarifb_mode_table]) 0 0 (by decide) (by decide)

/-- C3 (spec-modelled): a `VADDR` write re-validates the whole
configuration — whenever the raw resulting configuration violates the
invariant, the geometry registers and `VADDR` are all forced to zero; in
particular writing `WIDTH = 321` and then `VADDR = 100` zeroes everything
(321 is not a multiple of 16). -/
theorem stfb_vaddr_validation :
    (∀ (thr now : Nat) (s : STFBState) (v : Nat),
        stfb_config_valid { s with vaddr := v % 2 ^ 32 } = false →
        (stfb_write_reg thr now s .vaddr v).depth = 0 ∧
        (stfb_write_reg thr now s .vaddr v).width = 0 ∧
        (stfb_write_reg thr now s .vaddr v).height = 0 ∧
        (stfb_write_reg thr now s .vaddr v).vaddr = 0) ∧
    (∀ (thr now : Nat) (s : STFBState),
        (stfb_write_reg thr now (stfb_write_reg thr now s .width 321) .vaddr 100).depth = 0 ∧
        (stfb_write_reg thr now (stfb_write_reg thr now s .width 321) .vaddr 100).width = 0 ∧
        (stfb_write_reg thr now (stfb_write_reg thr now s .width 321) .vaddr 100).height = 0 ∧
        (stfb_write_reg thr now (stfb_write_reg thr now s .width 321) .vaddr 100).vaddr = 0) := by
  constructor
  · intro thr now s v hbad
    norm_num at hbad
    simp [stfb_write_reg, stfb_write_vaddr, stfb_zero_geometry, hbad]
  · intro thr now s
    simp [stfb_write_reg, stfb_write_vaddr, stfb_config_valid, stfb_zero_geometry]

/-- C3 (witness): the validation applied to a concrete configuration. -/
theorem stfb_vaddr_validation_witness :
    (stfb_write_reg 0 0 stfbZero .vaddr 100).vaddr = 0 ∧
    (stfb_write_reg 0 0 stfbZero .vaddr 100).width = 0 :=
  ⟨(stfb_vaddr_validation.1 0 0 stfbZero 100 (by decide)).2.2.2,
   (stfb_vaddr_validation.1 0 0 stfbZero 100 (by decide)).2.1⟩

/-- C6 (spec-modelled): writing `VBL_PERIOD = p` with `p` above the
threshold arms the timer at `now + p` and stores the period `p`; at or
below the threshold (including 0) the timer goes idle, the stored period
becomes 0 and any pending firing is canceled. -/
theorem stfb_vbl_period_write :
    (∀ (thr now : Nat) (s : STFBState) (p : Nat), thr < p →
        (stfb_write_reg thr now s .vbl_period p).vbl_armed = true ∧
        (stfb_write_reg thr now s .vbl_period p).vbl_deadline = now + p ∧
        (stfb_write_reg thr now s .vbl_period p).vbl_period = p) ∧
    (∀ (thr now : Nat) (s : STFBState) (p : Nat), p ≤ thr →
        (stfb_write_reg thr now s .vbl_period p).vbl_armed = false ∧
        (stfb_write_reg thr now s .vbl_period p).vbl_period = 0) := by
  constructor
  · intro thr now s p h
    simp [stfb_write_reg, stfb_write_vbl_period, h]
  · intro thr now s p h
    simp [stfb_write_reg, stfb_write_vbl_period, Nat.not_lt.mpr h]

/-- C6 (witness): arming with period 5 at time 3, then disarming with 0. -/
theorem stfb_vbl_period_write_witness :
    (stfb_write_reg 0 3 stfbZero .vbl_period 5).vbl_armed = true ∧
    (stfb_write_reg 0 3 stfbZero .vbl_period 5).vbl_deadline = 3 + 5 ∧
    (stfb_write_reg 0 3 stfbZero .vbl_period 0).vbl_armed = false :=
  ⟨(stfb_vbl_period_write.1 0 3 stfbZero 5 (by decide)).1,
   (stfb_vbl_period_write.1 0 3 stfbZero 5 (by decide)).2.1,
   (stfb_vbl_period_write.2 0 3 stfbZero 0 (by decide)).1⟩

/-- C7 (spec-modelled): with `VADDR == 0` (display off) a redraw cycle
leaves the state unchanged and emits no update notification. -/
theorem stfb_redraw_display_off :
    ∀ (s : STFBState) (dirty : Nat → Bool), s.vaddr = 0 →
      stfb_redraw s dirty = (s, []) := by
  intro s dirty h
  simp [stfb_redraw, h]

/-- C7 (witness): the display-off redraw applied to the all-off state with
an everything-dirty snapshot. -/
theorem stfb_redraw_display_off_witness :
    stfb_redraw stfbZero (fun _ => true) = (stfbZero, []) :=
  stfb_redraw_display_off stfbZero (fun _ => true) rfl

/-- C8 (spec-modelled): writing a 32-bit color at an in-range palette index
and reading the same index back returns the identical value. -/
theorem stfb_palette_roundtrip :
    ∀ (s : STFBState) (i c : Nat), i < 256 → c < 2 ^ 32 →
      stfb_palette_read (stfb_palette_write s i c) i = c := by
  intro s i c hi hc
  have hc' : c < 4294967296 := hc
  simp [stfb_palette_write, stfb_palette_read, hi, Nat.mod_eq_of_lt hc']

/-- C8 (witness): the round trip at index 7 with a concrete color. -/
theorem stfb_palette_roundtrip_witness :
    stfb_palette_read (stfb_palette_write stfbZero 7 0xdeadbeef) 7 = 0xdeadbeef :=
  stfb_palette_roundtrip stfbZero 7 0xdeadbeef (by decide) (by decide)

end AtaristFb
